import Mathlib

/-!
Verification of the risk_model_tool preprocessing library.

The development shallowly embeds the column-level transform components of
`src/risk_model_tool/preprocess/preprocess.py` (Cap, Floor, MissingImpute,
Normalize, Scale, Woe, and the Tactic orchestrator's configuration check and
fit guard) and the correlation utilities of `utils/data_filter.py`
(`gen_corr`, `filt_corr`).

Modelling conventions:
- a dataframe column of floats is `List (Option ℚ)`; `none` models NaN
  (a missing value), `some v` a present value;
- each distinct `raise` site of the Python source becomes a constructor of
  the error type `PErr`, and a method that can raise returns `Except PErr _`;
- per-variable methods are embedded at the level of one variable's column
  together with that variable's row of the reference table, which is how the
  Python loop bodies act.
-/

/-- Error sites of the preprocessing source, one constructor per distinct
`raise` reason: a missing reference value, a degenerate statistic
(zero std / max = min), a failed config check at `Tactic.fit` entry, a WOE
component without a target, an unknown variable type, and the runtime crash
sites reached inside `check_config_file`. -/
inductive PErr where
  | missingRef : PErr
  | degenerate : PErr
  | configError : PErr
  | targetMissing : PErr
  | unknownType : PErr
  | runtimeCrash : PErr
  deriving DecidableEq, Repr

deriving instance DecidableEq for Except

/-- `np.where(x > cap, cap, x)` on one cell: NaN compares false, so a missing
value is kept; a present value strictly above the cap becomes the cap
(source line 213). -/
def capClampVal (cap : ℚ) (x : Option ℚ) : Option ℚ :=
  match x with
  | none => none
  | some v => some (if v > cap then cap else v)

/-- Embedding of the `Cap.apply` loop body for one variable (source lines
209-213): read `Cap_Value` from the reference row; raise when it is null;
otherwise rewrite the column with `np.where(col > cap, cap, col)`. -/
def capApplyCol (capValue : Option ℚ) (col : List (Option ℚ)) :
    Except PErr (List (Option ℚ)) :=
  match capValue with
  | none => Except.error PErr.missingRef
  | some c => Except.ok (List.map (capClampVal c) col)

/-- Semantics of the line `df_master[var] = np.where(df_master[var] <
floor_value, floor_value, df_master[var])` (source line 290).  In the source
this line sits inside the `if pd.isnull(floor_value)` branch AFTER the
`raise`, so `floorApplyCol` below never executes it. -/
def floorClampVal (floor : ℚ) (x : Option ℚ) : Option ℚ :=
  match x with
  | none => none
  | some v => some (if v < floor then floor else v)

/-- Embedding of the `Floor.apply` loop body for one variable (source lines
286-292): when `Floor_Value` is null it raises, and the clamping assignment
is unreachable dead code after that raise; when `Floor_Value` is present the
branch is not taken and the loop body performs no assignment at all, so the
column is returned unchanged. -/
def floorApplyCol (floorValue : Option ℚ) (col : List (Option ℚ)) :
    Except PErr (List (Option ℚ)) :=
  match floorValue with
  | none => Except.error PErr.missingRef
  | some _ => Except.ok col

/-- Embedding of the `Normalize.apply` loop body for one variable (source
lines 653-659): raise `missingRef` when the fitted mean or std is null,
raise `degenerate` when the std equals 0, else map `(x - mean) / std` over
the column (NaN propagates, i.e. `none` stays `none`). -/
def normApplyCol (meanv stdv : Option ℚ) (col : List (Option ℚ)) :
    Except PErr (List (Option ℚ)) :=
  match meanv, stdv with
  | some m, some s =>
    if s = 0 then Except.error PErr.degenerate
    else Except.ok (List.map (Option.map (fun v => (v - m) / s)) col)
  | _, _ => Except.error PErr.missingRef

/-- Embedding of the `Scale.apply` loop body for one variable (source lines
758-766): raise `missingRef` when the fitted min or max is null, raise
`degenerate` when `max - min == 0`, else map `(x - min) / (max - min)` over
the column and then apply the two in-place clamps of lines 765-766 in
source order: first values `> 1` become `1`, then values `< 0` become `0`.
`none` (NaN) passes through every step. -/
def scaleApplyCol (mnv mxv : Option ℚ) (col : List (Option ℚ)) :
    Except PErr (List (Option ℚ)) :=
  match mnv, mxv with
  | some mn, some mx =>
    if mx - mn = 0 then Except.error PErr.degenerate
    else
      let c1 := List.map (Option.map (fun v => (v - mn) / (mx - mn))) col
      let c2 := List.map (Option.map (fun y => if y > 1 then 1 else y)) c1
      let c3 := List.map (Option.map (fun y => if y < 0 then 0 else y)) c2
      Except.ok c3
  | _, _ => Except.error PErr.missingRef

/-- The net effect of Scale's three steps on one present value. -/
def scaleVal (mn mx : ℚ) (v : ℚ) : ℚ :=
  if (v - mn) / (mx - mn) > 1 then 1
  else if (v - mn) / (mx - mn) < 0 then 0
  else (v - mn) / (mx - mn)

/-- A configuration-table cell that Python reads dynamically: either a
string or a float (the `Missing_Impute` column holds policy tokens such as
`mean` as strings and numeric literals as floats). -/
inductive CellVal where
  | str (v : String) : CellVal
  | num (q : ℚ) : CellVal
  deriving DecidableEq, Repr

/-- pandas `Series.mean()`: the mean of the non-missing entries, NaN (none)
when every entry is missing. -/
def colMean (col : List (Option ℚ)) : Option ℚ :=
  let vs := List.filterMap id col
  if vs.length = 0 then none else some (vs.sum / (vs.length : ℚ))

/-- pandas `Series.median()`: the middle non-missing entry after sorting, or
the mean of the two middle entries for an even count, NaN when every entry
is missing. -/
def colMedian (col : List (Option ℚ)) : Option ℚ :=
  let vs := List.insertionSort (fun a b => a ≤ b) (List.filterMap id col)
  if vs.length = 0 then none
  else if vs.length % 2 = 1 then some (vs.getD (vs.length / 2) 0)
  else some ((vs.getD (vs.length / 2 - 1) 0 + vs.getD (vs.length / 2) 0) / 2)

/-- Embedding of the `MissingImpute.fit` branch for one numerical variable
(source lines 353-361): the token `mean` resolves to the column mean,
`median` to the column median, any other non-null cell is cast with
`float(...)` — a numeric cell casts to its value, a non-numeric string makes
`float` raise (modelled `runtimeCrash`) — and a null cell resolves to None
without error. -/
def miFitNum (token : Option CellVal) (col : List (Option ℚ)) :
    Except PErr (Option ℚ) :=
  match token with
  | some (CellVal.str t) =>
    if t = "mean" then Except.ok (colMean col)
    else if t = "median" then Except.ok (colMedian col)
    else Except.error PErr.runtimeCrash
  | some (CellVal.num q) => Except.ok (some q)
  | none => Except.ok none

/-- Embedding of the `MissingImpute.apply` loop body for one numerical
variable (source lines 396-405): a variable whose column has no missing
value is skipped (`continue`), so its column is returned as is; otherwise a
null resolved impute value raises, and `fillna` replaces exactly the missing
entries with the resolved value. -/
def miApplyNumCol (imputeValue : Option ℚ) (col : List (Option ℚ)) :
    Except PErr (List (Option ℚ)) :=
  if List.all col Option.isSome then Except.ok col
  else
    match imputeValue with
    | none => Except.error PErr.missingRef
    | some q => Except.ok (List.map (fun x => some (x.getD q)) col)

/-- Runtime dtype of a dataframe column as `check_config_file` classifies
dtypes: the numeric dtypes of its `num_type_list`, the string/object dtypes
of its `cag_type_list`, and everything else. -/
inductive Dtype where
  | numeric : Dtype
  | stringObj : Dtype
  | other : Dtype
  deriving DecidableEq, Repr

/-- One row of the configuration/reference table (design §3): the columns
`check_config_file` and the component constructors read.  Flags are the
integers 0/1 of the source, value cells are nullable. -/
structure ConfigRow where
  varName : String
  varType : String
  indModel : Int
  indCap : Int
  capValue : Option ℚ
  indFloor : Int
  floorValue : Option ℚ
  missingImpute : Option CellVal
  indWOE : Int
  woeBin : Option String
  indNorm : Int
  indScale : Int
  deriving DecidableEq, Repr

/-- A configuration table: its header row (`self.config.columns`) and its
data rows. -/
structure Config where
  headers : List String
  rows : List ConfigRow
  deriving DecidableEq, Repr

/-- The `allow_header` list of `check_config_file` (source lines 862-863),
including its misspelt `Preicesion` entry, verbatim. -/
def allowHeader : List String :=
  ["Var_Name", "Var_Type", "Preicesion", "Ind_Model", "Ind_Cap", "Cap_Value",
   "Ind_Floor", "Floor_Value", "Missing_Impute", "Ind_WOE", "WOE_Bin",
   "Ind_Norm", "Ind_Scale"]

/-- `df_master.dtypes[var]`: the dtype of a named dataframe column, a
`KeyError` (none) when the column is absent. -/
def dtypeOf (df : List (String × Dtype)) (v : String) : Option Dtype :=
  Option.map (fun p => p.2) (List.find? (fun p => p.1 = v) df)

/-- The Var_Type check loop of `check_config_file` (source lines 884-893),
threading the error counter.  A variable that is neither numerical nor
categorical reaches `print("...").format(var)` on line 886, which raises
`AttributeError` at runtime (`print` returns None), modelled `runtimeCrash`;
a listed variable absent from the dataframe makes `var_type_master[var]`
raise `KeyError`, also modelled `runtimeCrash`.  The two `elif` arms mirror
Python's short-circuit evaluation order. -/
def checkTypesAux (numList cagList : List String) (df : List (String × Dtype)) :
    List String → Nat → Except PErr Nat
  | [], cnt => Except.ok cnt
  | var :: rest, cnt =>
    if ¬ (var ∈ numList) ∧ ¬ (var ∈ cagList) then Except.error PErr.runtimeCrash
    else if var ∈ numList then
      match dtypeOf df var with
      | none => Except.error PErr.runtimeCrash
      | some d =>
        if d ≠ Dtype.numeric then checkTypesAux numList cagList df rest (cnt + 1)
        else if var ∈ cagList then checkTypesAux numList cagList df rest (cnt + 1)
        else checkTypesAux numList cagList df rest cnt
    else
      match dtypeOf df var with
      | none => Except.error PErr.runtimeCrash
      | some d =>
        if d ≠ Dtype.stringObj then checkTypesAux numList cagList df rest (cnt + 1)
        else checkTypesAux numList cagList df rest cnt

/-- The categorical cap/floor check of `check_config_file` (source lines
896-902): one error per categorical variable whose first config row has
`Ind_Cap == 1` or (`elif`) `Ind_Floor == 1`. -/
def capFloorErrors (rows : List ConfigRow) (cagList : List String) : Nat :=
  List.foldl (fun cnt var =>
    match List.find? (fun r => r.varName = var) rows with
    | none => cnt
    | some r =>
      if r.indCap = 1 then cnt + 1
      else if r.indFloor = 1 then cnt + 1
      else cnt) 0 cagList

/-- The Python runtime types that the comparison on source line 907 can see:
`impute_value = self.config['Missing_Impute'][self.config['Var_Name'] ==
var]` is a pandas Series (the `.iloc[0]` used everywhere else is missing
here), so `type(impute_value)` is `series`, never `str`. -/
inductive PyType where
  | series : PyType
  | pyStr : PyType
  deriving DecidableEq, Repr

/-- The Missing_Impute check of `check_config_file` (source lines 905-909).
Because `type(impute_value) == str` compares the type of a Series with
`str`, the condition is False for every variable and the membership test
after the short-circuiting `and` is never evaluated: the loop counts no
error whatever the cell holds. -/
def imputeCheckErrors (numList : List String) : Nat :=
  List.foldl (fun cnt _ =>
    if PyType.series = PyType.pyStr then cnt + 1 else cnt) 0 numList

/-- Embedding of `Tactic.check_config_file` (source lines 842-911): the
header check, the Var_Name existence check, the Var_Type loop, the
categorical cap/floor loop and the (dead) Missing_Impute loop, in source
order, each feeding the error counter. -/
def check_config_file (config : Config) (df : List (String × Dtype)) :
    Except PErr Nat :=
  let wrong_header := List.filter (fun c => decide (¬ (c ∈ allowHeader)))
    config.headers
  let cnt1 : Nat := if wrong_header = [] then 0 else 1
  let var_list_config := List.map (fun r => r.varName) config.rows
  let var_list_master := List.map (fun p => p.1) df
  let wrong_var_name := List.filter (fun v => decide (¬ (v ∈ var_list_master)))
    var_list_config
  let cnt2 := if wrong_var_name = [] then cnt1 else cnt1 + 1
  let num_var_list := List.map (fun r => r.varName)
    (List.filter (fun r => decide (r.varType = "numerical")) config.rows)
  let cag_var_list := List.map (fun r => r.varName)
    (List.filter (fun r => decide (r.varType = "categorical")) config.rows)
  match checkTypesAux num_var_list cag_var_list df var_list_config cnt2 with
  | Except.error e => Except.error e
  | Except.ok cnt3 =>
    Except.ok (cnt3 + capFloorErrors config.rows cag_var_list
      + imputeCheckErrors num_var_list)

/-- The component types a `Tactic` process list may hold. -/
inductive ProcOp where
  | cap : ProcOp
  | floor : ProcOp
  | missingImpute : ProcOp
  | woe : ProcOp
  | normalize : ProcOp
  | scale : ProcOp
  deriving DecidableEq, Repr

/-- One row of the WOE reference table (design §3): variable name, variable
type, bin descriptor and the evidence weight substituted at apply time. -/
structure WoeRefRow where
  varName : String
  varType : String
  varValue : String
  refValue : ℚ
  deriving DecidableEq, Repr

/-- One dataframe column with its name, dtype and cells (the shape
`Tactic.fit` threads through its loop). -/
structure DfCol where
  name : String
  dtype : Dtype
  cells : List (Option CellVal)
  deriving DecidableEq, Repr

/-- The orchestrator's state (source lines 802-822): configuration table,
its working copy `reference`, the ordered component list, the optional
target name and the optional preloaded WOE reference table. -/
structure TacticState where
  config : Config
  reference : Config
  processList : List ProcOp
  target : Option String
  woeReference : Option (List WoeRefRow)
  deriving DecidableEq, Repr

/-- The loop of `Tactic.fit` (source lines 1000-1009): each component in
order is compiled against the current state and its `fit` + `apply` are run
on the working dataframe.  The body of one iteration is the parameter
`runOp` (it covers `__complie`, `fit` and `apply` of the component, whose
internals claim C7 does not depend on); the accumulated list records which
components actually ran. -/
def tacticFitLoop
    (runOp : ProcOp → TacticState → List DfCol →
      Except PErr (TacticState × List DfCol)) :
    List ProcOp → TacticState → List DfCol → List ProcOp →
      TacticState × List ProcOp × Except PErr Config
  | [], st, _, ran => (st, ran.reverse, Except.ok st.reference)
  | op :: rest, st, df, ran =>
    match runOp op st df with
    | Except.error e => (st, (op :: ran).reverse, Except.error e)
    | Except.ok (st2, df2) => tacticFitLoop runOp rest st2 df2 (op :: ran)

/-- Embedding of `Tactic.fit` (source lines 983-1010): run
`check_config_file` on the input dataframe and raise `TypeError` before the
component loop when it reports any error; then `__check_attribute` raises
when a Woe component is listed without a target; only then does the
component loop start.  The returned triple is the orchestrator state after
the call, the components whose fit/apply ran, and the result. -/
def tacticFit
    (runOp : ProcOp → TacticState → List DfCol →
      Except PErr (TacticState × List DfCol))
    (st : TacticState) (df : List DfCol) :
    TacticState × List ProcOp × Except PErr Config :=
  match check_config_file st.config (List.map (fun c => (c.name, c.dtype)) df) with
  | Except.error e => (st, [], Except.error e)
  | Except.ok errorCnt =>
    if 0 < errorCnt then (st, [], Except.error PErr.configError)
    else if ProcOp.woe ∈ st.processList ∧ st.target = none then
      (st, [], Except.error PErr.targetMissing)
    else tacticFitLoop runOp st.processList st df []

/-- Embedding of `Woe.apply` at the level of the dataframe's column-name
list (source lines 521-554): raise when no reference table is present; else
restrict the reference to the apply list, and for each distinct numerical
(then categorical) variable of that restriction let the binning engine write
its substituted column — `woe.numwoe_apply` / `woe.catwoe_apply` are the
external collaborators of design §6, passed in as their effect `engineNum` /
`engineCat` on the column-name list — and finally keep only the columns
whose name is not in the apply list (`keep_list`, source line 552). -/
def woeApplyCols (engineNum engineCat : List String → String → List String)
    (reference : Option (List WoeRefRow)) (applyList : List String)
    (cols : List String) : Except PErr (List String) :=
  match reference with
  | none => Except.error PErr.missingRef
  | some ref =>
    let refFiltered := List.filter (fun r => decide (r.varName ∈ applyList)) ref
    let numVars := (List.map (fun r => r.varName)
      (List.filter (fun r => decide (r.varType = "numerical")) refFiltered)).dedup
    let cagVars := (List.map (fun r => r.varName)
      (List.filter (fun r => decide (r.varType = "categorical")) refFiltered)).dedup
    let cols1 := List.foldl engineNum cols numVars
    let cols2 := List.foldl engineCat cols1 cagVars
    Except.ok (List.filter (fun c => decide (¬ (c ∈ applyList))) cols2)

/-- In-place marking of variable `v` in the correlation matrix:
`corr.loc[v, :] = -1; corr.loc[:, v] = -1` (source lines 27-28). -/
def markVar (M : Nat → Nat → ℚ) (v : Nat) : Nat → Nat → ℚ :=
  fun i j => if i = v ∨ j = v then -1 else M i j

/-- One cell visit of the `filt_corr` scan (source lines 25-30): cell
`(idx, col)` is read from the current matrix; when it exceeds the threshold,
row `idx` and column `idx` are overwritten with the sentinel; the
`try/except pass` never fires on a numeric matrix. -/
def scanCell (thresh : ℚ) (M : Nat → Nat → ℚ) (col idx : Nat) : Nat → Nat → ℚ :=
  if M idx col > thresh then markVar M idx else M

/-- The single full scan of `filt_corr` (source lines 23-30): `for col in
corr.columns: for idx in corr.index:` over an n-variable square matrix whose
rows and columns are indexed 0..n-1 in iteration order. -/
def filtScan (n : Nat) (thresh : ℚ) (M : Nat → Nat → ℚ) : Nat → Nat → ℚ :=
  List.foldl
    (fun Mc col => List.foldl (fun Mi idx => scanCell thresh Mi col idx) Mc
      (List.range n))
    M (List.range n)

/-- `picked = (corr != -1).any()` (source line 32): the variables whose
column holds at least one non-sentinel entry after the scan, in column
order. -/
def pickedVars (n : Nat) (M : Nat → Nat → ℚ) : List Nat :=
  List.filter (fun j => List.any (List.range n) (fun i => decide (M i j ≠ -1)))
    (List.range n)

/-- Embedding of `filt_corr` (source lines 21-34): the scan, then the
restriction `corr.loc[picked, picked]` of the scanned matrix, returned as
the surviving variable list together with the sub-matrix in their order. -/
def filtCorr (n : Nat) (thresh : ℚ) (M : Nat → Nat → ℚ) :
    List Nat × List (List ℚ) :=
  let M2 := filtScan n thresh M
  let picked := pickedVars n M2
  (picked, List.map (fun i => List.map (fun j => M2 i j) picked) picked)

/-- Row filter of `gen_corr` (source line 6): `df.loc[(df != -1).T.any(), :]`
keeps exactly the rows having at least one cell different from -1. -/
def genCorrKeptRows (df : List (List ℚ)) : List (List ℚ) :=
  List.filter (fun row => List.any row (fun x => decide (x ≠ -1))) df

/-- The cell transform of `gen_corr` (source lines 8-14): a cell equal to 1
maps to 0, a negative cell to its negation, anything else to itself. -/
def genCorrTransform (x : ℚ) : ℚ :=
  if x = 1 then 0 else if x < 0 then -x else x

/-- Embedding of `gen_corr` (source lines 4-18): drop the all-sentinel rows,
hand the kept rows to the pandas correlation routine (an external
collaborator, passed as the parameter `corrFn`), and transform every cell of
its result with `applymap(transform)`. -/
def genCorr (corrFn : List (List ℚ) → List (List ℚ)) (df : List (List ℚ)) :
    List (List ℚ) :=
  List.map (fun row => List.map genCorrTransform row)
    (corrFn (genCorrKeptRows df))

/-- The failing configuration of claim C3: one numerical variable `x` whose
`Missing_Impute` cell is the arbitrary string `foo`, every header from the
allowed schema, nothing else unusual. -/
def configC3 : Config :=
  { headers := ["Var_Name", "Var_Type", "Ind_Model", "Ind_Cap", "Cap_Value",
      "Ind_Floor", "Floor_Value", "Missing_Impute", "Ind_WOE", "WOE_Bin",
      "Ind_Norm", "Ind_Scale"],
    rows := [{ varName := "x", varType := "numerical", indModel := 1,
               indCap := 0, capValue := none, indFloor := 0,
               floorValue := none,
               missingImpute := some (CellVal.str "foo"), indWOE := 0,
               woeBin := none, indNorm := 0, indScale := 0 }] }

/-- The dataframe for claim C3: column `x` with a numeric dtype, so every
other check of `check_config_file` passes. -/
def masterC3 : List (String × Dtype) := [("x", Dtype.numeric)]

/-- A configuration with one disallowed header and no rows: its only
`check_config_file` error is the header error, count 1. -/
def configC7 : Config := { headers := ["Bad_Header"], rows := [] }

/-- Orchestrator state for the C7 witness, built on `configC7`. -/
def stateC7 : TacticState :=
  { config := configC7, reference := configC7, processList := [ProcOp.cap],
    target := none, woeReference := none }

/-- The 2-variable transformed matrix of the C2 counterexample: correlation
2 between the two distinct variables, 0 on the diagonal. -/
def corrPair : Nat → Nat → ℚ := fun i j => if i = j then 0 else 2

/-- The 3-variable matrix of the C2 witness: transformed correlation 2
between variables 0 and 1, 0 everywhere else. -/
def corrTriple : Nat → Nat → ℚ := fun i j =>
  if (i = 0 ∧ j = 1) ∨ (i = 1 ∧ j = 0) then 2 else 0

/-- The C10 witness frame: a first row that is all sentinel -1, a second row
that is not. -/
def dfC10 : List (List ℚ) := [[-1, -1], [0, -1]]

theorem scaleApplyCol_ok (mn mx : ℚ) (col : List (Option ℚ))
    (h : mx - mn ≠ 0) :
    scaleApplyCol (some mn) (some mx) col =
      Except.ok (List.map (Option.map (scaleVal mn mx)) col) := by
  simp only [scaleApplyCol, if_neg h, List.map_map]
  congr 1
  apply List.map_congr_left
  intro x _
  cases x with
  | none => rfl
  | some v =>
    simp only [Function.comp, Option.map_some, scaleVal]
    by_cases h1 : (v - mn) / (mx - mn) > 1
    · norm_num [scaleVal, h1]
    · simp [scaleVal, h1]

theorem scaleVal_mem_unit (mn mx v : ℚ) :
    0 ≤ scaleVal mn mx v ∧ scaleVal mn mx v ≤ 1 := by
  unfold scaleVal
  by_cases h1 : (v - mn) / (mx - mn) > 1
  · simp [h1]
  · by_cases h0 : (v - mn) / (mx - mn) < 0
    · simp [h1, h0]
    · simp only [if_neg h1, if_neg h0]
      exact ⟨le_of_not_lt h0, le_of_not_lt h1⟩

/-- Claim C1 (code_bug evidence): on the failing input — fitted floor value 0,
column `[-5, 3, NaN]` — `Floor.apply` returns the column unchanged, because
the assignment `np.where(col < floor, floor, col)` is dead code after the
`raise` inside the null-check branch; the claim (and the dead line itself,
`floorClampVal`) would turn `-5` into `0`. -/
theorem floorApplyCol_C1_dead_clamp :
    floorApplyCol (some 0) [some (-5), some 3, none] =
      Except.ok [some (-5), some 3, none] ∧
    floorClampVal 0 (some (-5)) = some 0 ∧
    ((-5 : ℚ) < 0 ∧ (some (-5) : Option ℚ) ≠ some 0) := by
  refine ⟨rfl, by decide, by decide, by decide⟩

/-- Claim C6: for a non-null fitted cap, `Cap.apply` maps `capClampVal` over
the column; a value at or below the cap is returned unchanged (so never
increased), a value strictly above the cap becomes exactly the cap, and a
missing value stays missing. -/
theorem capApplyCol_C6 (c : ℚ) (col : List (Option ℚ)) :
    capApplyCol (some c) col = Except.ok (List.map (capClampVal c) col) ∧
    (∀ v : ℚ, v ≤ c → capClampVal c (some v) = some v) ∧
    (∀ v : ℚ, c < v → capClampVal c (some v) = some c) ∧
    capClampVal c none = none := by
  refine ⟨rfl, ?_, ?_, rfl⟩
  · intro v hv
    simp [capClampVal, not_lt.mpr hv]
  · intro v hv
    simp [capClampVal, hv]

/-- Witness for C6 at cap 10 and column `[3, 42, NaN]`. -/
theorem capApplyCol_C6_witness :
    capApplyCol (some 10) [some 3, some 42, none] =
      Except.ok (List.map (capClampVal 10) [some 3, some 42, none]) ∧
    capClampVal 10 (some 3) = some 3 ∧
    capClampVal 10 (some 42) = some 10 ∧
    capClampVal 10 none = none :=
  ⟨(capApplyCol_C6 10 [some 3, some 42, none]).1,
   (capApplyCol_C6 10 [some 3, some 42, none]).2.1 3 (by norm_num),
   (capApplyCol_C6 10 [some 3, some 42, none]).2.2.1 42 (by norm_num),
   (capApplyCol_C6 10 [some 3, some 42, none]).2.2.2⟩

/-- Claim C4: with non-null fitted min and max and max distinct from min,
`Scale.apply` maps each value to `(x - min) / (max - min)` clamped into the
unit interval, every produced value lies within `[0, 1]` inclusive, and a
missing value stays missing. -/
theorem scaleApplyCol_C4 (mn mx : ℚ) (col : List (Option ℚ)) (h : mx ≠ mn) :
    scaleApplyCol (some mn) (some mx) col =
      Except.ok (List.map (Option.map (scaleVal mn mx)) col) ∧
    (∀ v : ℚ, 0 ≤ scaleVal mn mx v ∧ scaleVal mn mx v ≤ 1) ∧
    (∀ v : ℚ, (v - mn) / (mx - mn) > 1 → scaleVal mn mx v = 1) ∧
    (∀ v : ℚ, (v - mn) / (mx - mn) < 0 → scaleVal mn mx v = 0) ∧
    Option.map (scaleVal mn mx) none = (none : Option ℚ) := by
  refine ⟨scaleApplyCol_ok mn mx col (sub_ne_zero.mpr h),
    fun v => scaleVal_mem_unit mn mx v, ?_, ?_, rfl⟩
  · intro v hv
    simp [scaleVal, hv]
  · intro v hv
    have hv1 : ¬ ((v - mn) / (mx - mn) > 1) := by linarith
    simp [scaleVal, hv, hv1]

/-- Witness for C4 at min 0, max 2 and column `[1, 5, -3, NaN]`: the scaled
column is `[1/2, 1, 0, NaN]` and the out-of-range inputs 5 and -3 clamp to
exactly 1 and 0. -/
theorem scaleApplyCol_C4_witness :
    scaleApplyCol (some 0) (some 2) [some 1, some 5, some (-3), none] =
      Except.ok (List.map (Option.map (scaleVal 0 2))
        [some 1, some 5, some (-3), none]) ∧
    (0 ≤ scaleVal 0 2 5 ∧ scaleVal 0 2 5 ≤ 1) ∧
    scaleVal 0 2 5 = 1 ∧
    scaleVal 0 2 (-3) = 0 ∧
    List.map (Option.map (scaleVal 0 2)) [some 1, some 5, some (-3), none] =
      [some (1/2), some 1, some 0, none] :=
  ⟨(scaleApplyCol_C4 0 2 [some 1, some 5, some (-3), none] (by norm_num)).1,
   (scaleApplyCol_C4 0 2 [some 1, some 5, some (-3), none] (by norm_num)).2.1 5,
   (scaleApplyCol_C4 0 2 [some 1, some 5, some (-3), none] (by norm_num)).2.2.1 5
     (by norm_num),
   (scaleApplyCol_C4 0 2 [some 1, some 5, some (-3), none] (by norm_num)).2.2.2.1
     (-3) (by norm_num),
   by norm_num [scaleVal]⟩

/-- Claim C5: `Normalize.apply` raises the degenerate-statistic error exactly
when the fitted std is 0, `Scale.apply` raises it exactly when the fitted
max minus min is 0; in each case the check precedes the division, so the
success branch divides by a value known non-zero, and a null statistic
raises the distinct missing-reference error instead. -/
theorem normScale_degenerate_C5 (m s mn mx : ℚ) (col : List (Option ℚ)) :
    (normApplyCol (some m) (some s) col = Except.error PErr.degenerate ↔
      s = 0) ∧
    (s ≠ 0 → normApplyCol (some m) (some s) col =
      Except.ok (List.map (Option.map (fun v => (v - m) / s)) col)) ∧
    normApplyCol (some m) none col = Except.error PErr.missingRef ∧
    (scaleApplyCol (some mn) (some mx) col = Except.error PErr.degenerate ↔
      mx - mn = 0) ∧
    (mx - mn ≠ 0 → scaleApplyCol (some mn) (some mx) col =
      Except.ok (List.map (Option.map (scaleVal mn mx)) col)) ∧
    scaleApplyCol (some mn) none col = Except.error PErr.missingRef := by
  refine ⟨⟨?_, ?_⟩, ?_, rfl, ⟨?_, ?_⟩, ?_, rfl⟩
  · intro h
    by_contra hs
    simp [normApplyCol, hs] at h
  · intro hs
    simp [normApplyCol, hs]
  · intro hs
    simp [normApplyCol, hs]
  · intro h
    by_contra hs
    rw [scaleApplyCol_ok mn mx col hs] at h
    exact Except.noConfusion h
  · intro hs
    simp [scaleApplyCol, hs]
  · intro hs
    exact scaleApplyCol_ok mn mx col hs

/-- Witness for C5: at std 0 Normalize reports the degenerate statistic, at
std 2 it divides; at max = min Scale reports the degenerate statistic. -/
theorem normScale_degenerate_C5_witness :
    normApplyCol (some 1) (some 0) [some 3] = Except.error PErr.degenerate ∧
    normApplyCol (some 1) (some 2) [some 3] =
      Except.ok (List.map (Option.map (fun v => (v - 1) / 2)) [some 3]) ∧
    scaleApplyCol (some 4) (some 4) [some 3] = Except.error PErr.degenerate :=
  ⟨(normScale_degenerate_C5 1 0 4 4 [some 3]).1.mpr rfl,
   (normScale_degenerate_C5 1 2 4 4 [some 3]).2.1 (by norm_num),
   (normScale_degenerate_C5 1 2 4 4 [some 3]).2.2.2.1.mpr (by norm_num)⟩

/-- Claim C9: for a single numerical variable with `Missing_Impute = mean`,
fitting on the column `[1, 2, NaN, 4]` resolves the imputation value to the
mean of the non-missing entries, 7/3, and applying fills exactly the missing
entry, yielding `[1, 2, 7/3, 4]`. -/
theorem miMeanEndToEnd_C9 :
    miFitNum (some (CellVal.str "mean")) [some 1, some 2, none, some 4] =
      Except.ok (some (7/3)) ∧
    colMean [some 1, some 2, none, some 4] = some (7/3) ∧
    miApplyNumCol (some (7/3)) [some 1, some 2, none, some 4] =
      Except.ok [some 1, some 2, some (7/3), some 4] := by
  have hmean : colMean [some 1, some 2, none, some 4] = some (7/3) := by
    simp [colMean]
    norm_num
  refine ⟨?_, hmean, ?_⟩
  · simp [miFitNum, hmean]
  · simp [miApplyNumCol]

/-- Claim C3 (code_bug evidence): on a configuration whose single numerical
variable `x` exists in the dataset with a numeric dtype, has no categorical
cap/floor issue, but declares the arbitrary imputation string `foo`,
`check_config_file` still returns 0: the check on source line 907 compares
`type(impute_value)` — a pandas Series, `.iloc[0]` being absent — with
`str`, so the imputation check never counts an error, while the claim
requires a nonzero return here. -/
theorem checkConfig_C3_deadImputeCheck :
    check_config_file configC3 masterC3 = Except.ok 0 ∧
    (List.map (fun r => r.missingImpute) configC3.rows =
      [some (CellVal.str "foo")]) ∧
    ¬ ("foo" = "mean" ∨ "foo" = "median") := by
  refine ⟨by decide, rfl, by decide⟩

/-- Claim C7: whenever `check_config_file` returns a positive error count,
`Tactic.fit` stops with the fatal config error before its component loop:
the orchestrator state (in particular its reference table) is returned
exactly as it was, and the trace of components whose fit/apply ran is empty
— whatever the components themselves would do. -/
theorem tacticFitGuard_C7
    (runOp : ProcOp → TacticState → List DfCol →
      Except PErr (TacticState × List DfCol))
    (st : TacticState) (df : List DfCol) (n : Nat)
    (hchk : check_config_file st.config
      (List.map (fun c => (c.name, c.dtype)) df) = Except.ok n)
    (hpos : 0 < n) :
    tacticFit runOp st df = (st, [], Except.error PErr.configError) := by
  unfold tacticFit
  rw [hchk]
  simp [hpos]

/-- Witness for C7: the one-bad-header configuration makes the check return
count 1, and `Tactic.fit` stops with the config error leaving the state
untouched and the trace empty, even for a component body that would always
succeed. -/
theorem tacticFitGuard_C7_witness :
    tacticFit (fun _ st df => Except.ok (st, df)) stateC7 [] =
      (stateC7, [], Except.error PErr.configError) :=
  tacticFitGuard_C7 (fun _ st df => Except.ok (st, df)) stateC7 [] 1
    (by decide) (by decide)

/-- Claim C10: `gen_corr` first drops exactly the rows whose cells are all
the sentinel -1 — a row is kept iff it belongs to the frame and has at least
one non-sentinel cell — and the correlation is computed on the kept rows
only, its cells then transformed. -/
theorem genCorr_C10 (corrFn : List (List ℚ) → List (List ℚ))
    (df : List (List ℚ)) :
    genCorr corrFn df =
      List.map (fun row => List.map genCorrTransform row)
        (corrFn (genCorrKeptRows df)) ∧
    (∀ row : List ℚ,
      row ∈ genCorrKeptRows df ↔ row ∈ df ∧ ¬ (∀ x, x ∈ row → x = -1)) ∧
    (∀ row : List ℚ, row ∈ df → (∀ x, x ∈ row → x = -1) →
      ¬ (row ∈ genCorrKeptRows df)) := by
  have hmem : ∀ row : List ℚ,
      row ∈ genCorrKeptRows df ↔ row ∈ df ∧ ¬ (∀ x, x ∈ row → x = -1) := by
    intro row
    simp only [genCorrKeptRows, List.mem_filter, List.any_eq_true,
      decide_eq_true_eq]
    constructor
    · rintro ⟨h1, x, hx, hne⟩
      exact ⟨h1, fun hall => hne (hall x hx)⟩
    · rintro ⟨h1, hnall⟩
      refine ⟨h1, ?_⟩
      push_neg at hnall
      obtain ⟨x, hx, hne⟩ := hnall
      exact ⟨x, hx, hne⟩
  refine ⟨rfl, hmem, ?_⟩
  intro row hrow hall hkept
  exact ((hmem row).mp hkept).2 hall

/-- Witness for C10: the all-sentinel row `[-1, -1]` of the concrete frame
is dropped, and the kept rows are exactly the second row. -/
theorem genCorr_C10_witness :
    ¬ (([-1, -1] : List ℚ) ∈ genCorrKeptRows dfC10) ∧
    genCorrKeptRows dfC10 = [[0, -1]] :=
  ⟨(genCorr_C10 (fun d => d) dfC10).2.2 [-1, -1] (by decide) (by decide),
   by decide⟩

/-- Lists only grow under a fold whose step appends one element: whatever
is in the start list is in the fold's result. -/
theorem foldlAppendKeeps (g : String → String)
    (f : List String → String → List String)
    (hf : ∀ cs v, f cs v = cs ++ [g v]) :
    ∀ (L cs : List String) (x : String), x ∈ cs → x ∈ List.foldl f cs L := by
  intro L
  induction L with
  | nil => intro cs x hx; simpa using hx
  | cons v L ih =>
    intro cs x hx
    rw [List.foldl_cons]
    exact ih (f cs v) x (by rw [hf]; exact List.mem_append_left _ hx)

/-- A fold whose step appends `g v` for each visited `v` puts `g v` into the
result for every member of the visited list. -/
theorem foldlAppendAdds (g : String → String)
    (f : List String → String → List String)
    (hf : ∀ cs v, f cs v = cs ++ [g v]) :
    ∀ (L cs : List String) (v : String), v ∈ L → g v ∈ List.foldl f cs L := by
  intro L
  induction L with
  | nil => intro cs v hv; simp at hv
  | cons u L ih =>
    intro cs v hv
    rw [List.foldl_cons]
    rcases List.mem_cons.mp hv with h | h
    · subst h
      refine foldlAppendKeeps g f hf L (f cs v) (g v) ?_
      rw [hf]
      exact List.mem_append_right _ (List.mem_singleton_self _)
    · exact ih (f cs u) v h

/-- Claim C8: `Woe.apply` raises exactly when no WOE reference table is
present (the `none` case errors, the `some` case succeeds); with a table
present, the returned column list contains none of the apply-list
variables' original columns, and every reference-table variable of the
apply list got its new prefixed column — `nwoe_`+name for numerical,
`cwoe_`+name for categorical — kept in the output (provided the prefixed
name is not itself an apply-list entry).  `hNum`/`hCat` state the design-§6
engine boundary: each engine call appends its one substituted column. -/
theorem woeApply_C8
    (engineNum engineCat : List String → String → List String)
    (ref : List WoeRefRow) (applyList cols : List String)
    (hNum : ∀ cs v, engineNum cs v = cs ++ ["nwoe_" ++ v])
    (hCat : ∀ cs v, engineCat cs v = cs ++ ["cwoe_" ++ v]) :
    woeApplyCols engineNum engineCat none applyList cols =
      Except.error PErr.missingRef ∧
    ∃ out, woeApplyCols engineNum engineCat (some ref) applyList cols =
        Except.ok out ∧
      (∀ v, v ∈ applyList → ¬ (v ∈ out)) ∧
      (∀ r, r ∈ ref → r.varName ∈ applyList → r.varType = "numerical" →
        ¬ (("nwoe_" ++ r.varName) ∈ applyList) →
        ("nwoe_" ++ r.varName) ∈ out) ∧
      (∀ r, r ∈ ref → r.varName ∈ applyList → r.varType = "categorical" →
        ¬ (("cwoe_" ++ r.varName) ∈ applyList) →
        ("cwoe_" ++ r.varName) ∈ out) := by
  refine ⟨rfl, _, rfl, ?_, ?_, ?_⟩
  · intro v hv hmem
    have h2 := (List.mem_filter.mp hmem).2
    rw [decide_eq_true_eq] at h2
    exact h2 hv
  · intro r hr hral htype hnin
    refine List.mem_filter.mpr ⟨?_, by rw [decide_eq_true_eq]; exact hnin⟩
    refine foldlAppendKeeps _ engineCat hCat _ _ _ ?_
    refine foldlAppendAdds _ engineNum hNum _ cols r.varName ?_
    refine List.mem_dedup.mpr ?_
    refine List.mem_map.mpr ⟨r, ?_, rfl⟩
    refine List.mem_filter.mpr ⟨?_, by rw [decide_eq_true_eq]; exact htype⟩
    exact List.mem_filter.mpr ⟨hr, by rw [decide_eq_true_eq]; exact hral⟩
  · intro r hr hral htype hnin
    refine List.mem_filter.mpr ⟨?_, by rw [decide_eq_true_eq]; exact hnin⟩
    refine foldlAppendAdds _ engineCat hCat _ _ r.varName ?_
    refine List.mem_dedup.mpr ?_
    refine List.mem_map.mpr ⟨r, ?_, rfl⟩
    refine List.mem_filter.mpr ⟨?_, by rw [decide_eq_true_eq]; exact htype⟩
    exact List.mem_filter.mpr ⟨hr, by rw [decide_eq_true_eq]; exact hral⟩

/-- Witness for C8: one numerical reference row for variable `x`, apply list
`[x]`, frame columns `[x, y]`: apply without a table errors, with the table
the output keeps no column `x` and does keep the substituted `nwoe_x`. -/
theorem woeApply_C8_witness :
    woeApplyCols (fun cs v => cs ++ ["nwoe_" ++ v])
        (fun cs v => cs ++ ["cwoe_" ++ v]) none ["x"] ["x", "y"] =
      Except.error PErr.missingRef ∧
    (∃ out, woeApplyCols (fun cs v => cs ++ ["nwoe_" ++ v])
        (fun cs v => cs ++ ["cwoe_" ++ v])
        (some [{ varName := "x", varType := "numerical", varValue := "b1",
                 refValue := 5 }]) ["x"] ["x", "y"] = Except.ok out ∧
      ¬ ("x" ∈ out) ∧ ("nwoe_" ++ "x") ∈ out) := by
  obtain ⟨h1, out, h2, h3, h4, _h5⟩ :=
    woeApply_C8 (fun cs v => cs ++ ["nwoe_" ++ v])
      (fun cs v => cs ++ ["cwoe_" ++ v])
      [{ varName := "x", varType := "numerical", varValue := "b1",
         refValue := 5 }] ["x"] ["x", "y"]
      (fun _ _ => rfl) (fun _ _ => rfl)
    
  exact ⟨h1, out, h2, h3 "x" (by decide),
    h4 { varName := "x", varType := "numerical", varValue := "b1",
         refValue := 5 } (by simp) (by decide) rfl (by decide)⟩

/-- A fold leaves its state unchanged when every step fixes it. -/
theorem foldl_fix {α β : Type} (f : α → β → α) (M : α) :
    ∀ (L : List β), (∀ x, x ∈ L → f M x = M) → List.foldl f M L = M := by
  intro L
  induction L with
  | nil => intro _; rfl
  | cons x L ih =>
    intro h
    rw [List.foldl_cons, h x (List.mem_cons_self x L)]
    exact ih (fun y hy => h y (List.mem_cons_of_mem x hy))

/-- `List.range n` split at a position `b < n`. -/
theorem range_split (b n : Nat) (h : b < n) :
    List.range n = List.range b ++ b :: List.range' (b + 1) (n - b - 1) := by
  have h1 := List.range'_append 0 b (n - b) 1
  have hb : 0 + 1 * b = b := by omega
  have hn : n - b + b = n := by omega
  rw [hb, hn] at h1
  have h2 := List.range'_succ b (n - b - 1) 1
  rw [show (n - b - 1) + 1 = n - b from by omega] at h2
  rw [List.range_eq_range', ← h1, List.range_eq_range', h2]

/-- A column pass of the scan over cells that all read below or at the
threshold leaves the matrix unchanged. -/
theorem scanColFix (thresh : ℚ) (col : Nat) (M : Nat → Nat → ℚ)
    (L : List Nat) (h : ∀ idx, idx ∈ L → ¬ (M idx col > thresh)) :
    List.foldl (fun Mi idx => scanCell thresh Mi col idx) M L = M :=
  foldl_fix _ M L (fun idx hidx => by simp [scanCell, h idx hidx])

/-- The pass over column `a` when the single triggering cell of the column
is row `b`: rows before `b` read at most the threshold, row `b` triggers and
marks variable `b`, and the remaining rows of the now-marked matrix do not
trigger, so the pass returns exactly `markVar M b`. -/
theorem scanColSingleTrigger (thresh : ℚ) (a b n : Nat) (M : Nat → Nat → ℚ)
    (_hth : 0 ≤ thresh) (hab : a ≠ b)
    (hpre : ∀ idx, idx < b → ¬ (M idx a > thresh))
    (htrig : M b a > thresh)
    (hpost : ∀ idx, b < idx → ¬ (M idx a > thresh)) :
    List.foldl (fun Mi idx => scanCell thresh Mi a idx) M (List.range n) =
      if b < n then markVar M b else M := by
  by_cases hbn : b < n
  · rw [if_pos hbn, range_split b n hbn, List.foldl_append, List.foldl_cons]
    rw [scanColFix thresh a M (List.range b)
      (fun idx hidx => hpre idx (List.mem_range.mp hidx))]
    have hstep : scanCell thresh M a b = markVar M b := by
      simp [scanCell, htrig]
    rw [hstep]
    refine scanColFix thresh a (markVar M b) _ ?_
    intro idx hidx
    have hgt : b < idx := by
      have := (List.mem_range'_1.mp hidx).1
      omega
    have hne : ¬ (idx = b ∨ a = b) := by
      rintro (h | h)
      · omega
      · exact hab h
    simp only [markVar, if_neg hne]
    exact hpost idx hgt
  · rw [if_neg hbn]
    refine scanColFix thresh a M _ ?_
    intro idx hidx
    have hlt : idx < n := List.mem_range.mp hidx
    exact hpre idx (by omega)

/-- The single scan of `filt_corr` on a transformed symmetric matrix whose
only above-threshold pair is `(a, b)` with `a < b`: the scan's one
triggering cell is row `b`, column `a`, and the scan marks exactly variable
`b` — the row member, the later-encountered of the pair. -/
theorem filtScanSinglePair (n : Nat) (thresh : ℚ) (M : Nat → Nat → ℚ)
    (a b : Nat) (hth : 0 ≤ thresh) (hab : a < b) (hbn : b < n)
    (hdiag : ∀ i, M i i = 0) (hsym : ∀ i j, M i j = M j i)
    (hpair : M a b > thresh)
    (hother : ∀ i j, i ≠ j → ¬ (i = a ∧ j = b) → ¬ (i = b ∧ j = a) →
      M i j ≤ thresh) :
    filtScan n thresh M = markVar M b := by
  have han : a < n := by omega
  have hnother : ∀ i j, i ≠ j → ¬ (i = a ∧ j = b) → ¬ (i = b ∧ j = a) →
      ¬ (M i j > thresh) := by
    intro i j h1 h2 h3
    exact not_lt.mpr (hother i j h1 h2 h3)
  unfold filtScan
  generalize hF : (fun Mc col => List.foldl
    (fun Mi idx => scanCell thresh Mi col idx) Mc (List.range n)) = F
  rw [range_split a n han, List.foldl_append, List.foldl_cons]
  rw [foldl_fix F M (List.range a) ?hpre]
  case hpre =>
    intro col hcol
    have hca : col < a := List.mem_range.mp hcol
    rw [← hF]
    refine scanColFix thresh col M _ ?_
    intro idx _
    by_cases hic : idx = col
    · subst hic
      rw [hdiag idx]
      exact not_lt.mpr hth
    · exact hnother idx col hic (by omega) (by omega)
  have hcolA : F M a = markVar M b := by
    rw [← hF]
    show List.foldl (fun Mi idx => scanCell thresh Mi a idx) M (List.range n) =
      markVar M b
    rw [scanColSingleTrigger thresh a b n M hth (by omega) ?pre ?trig ?post,
      if_pos hbn]
    case pre =>
      intro idx hidx
      by_cases hia : idx = a
      · subst hia
        rw [hdiag idx]
        exact not_lt.mpr hth
      · exact hnother idx a hia (by omega) (by omega)
    case trig =>
      rw [hsym b a]
      exact hpair
    case post =>
      intro idx hidx
      exact hnother idx a (by omega) (by omega) (by omega)
  rw [hcolA]
  refine foldl_fix F (markVar M b) _ ?_
  intro col hcol
  have hca : a + 1 ≤ col := (List.mem_range'_1.mp hcol).1
  rw [← hF]
  refine scanColFix thresh col (markVar M b) _ ?_
  intro idx _
  by_cases hmark : idx = b ∨ col = b
  · simp only [markVar, if_pos hmark]
    intro hcontr
    have : (-1 : ℚ) ≤ thresh := by linarith
    exact absurd hcontr (not_lt.mpr this)
  · push_neg at hmark
    simp only [markVar, if_neg (by tauto : ¬ (idx = b ∨ col = b))]
    by_cases hic : idx = col
    · subst hic
      rw [hdiag idx]
      exact not_lt.mpr hth
    · refine hnother idx col hic ?_ ?_
      · rintro ⟨h1, h2⟩
        exact hmark.2 h2
      · rintro ⟨h1, h2⟩
        exact hmark.1 h1

/-- Claim C2 (amended): on a transformed symmetric matrix whose unique
above-threshold pair is `(a, b)` with `a < b` (threshold nonnegative,
diagonal zero), the single scan of `filt_corr` triggers at the cell whose
row is `b` and column is `a`, and the variable it eliminates is the ROW
member `b` — the later-encountered member of the pair, not the column
member claimed — so the survivors are every variable except `b`, and the
returned matrix is the original correlation sub-matrix restricted to the
variables never marked. -/
theorem filtCorr_C2_amended (n : Nat) (thresh : ℚ) (M : Nat → Nat → ℚ)
    (a b : Nat) (hth : 0 ≤ thresh) (hab : a < b) (hbn : b < n)
    (hdiag : ∀ i, M i i = 0) (hsym : ∀ i j, M i j = M j i)
    (hpair : M a b > thresh)
    (hother : ∀ i j, i ≠ j → ¬ (i = a ∧ j = b) → ¬ (i = b ∧ j = a) →
      M i j ≤ thresh) :
    filtScan n thresh M = markVar M b ∧
    (filtCorr n thresh M).1 =
      List.filter (fun j => decide (¬ j = b)) (List.range n) ∧
    (filtCorr n thresh M).2 =
      List.map (fun i => List.map (fun j => M i j)
          (List.filter (fun j => decide (¬ j = b)) (List.range n)))
        (List.filter (fun j => decide (¬ j = b)) (List.range n)) := by
  have hscan : filtScan n thresh M = markVar M b :=
    filtScanSinglePair n thresh M a b hth hab hbn hdiag hsym hpair hother
  have hpicked : pickedVars n (markVar M b) =
      List.filter (fun j => decide (¬ j = b)) (List.range n) := by
    unfold pickedVars
    refine List.filter_congr ?_
    intro j hj
    by_cases hjb : j = b
    · have hany : List.any (List.range n)
          (fun i => decide (markVar M b i j ≠ -1)) = false := by
        rw [List.any_eq_false]
        intro i _
        simp [markVar, hjb]
      rw [hany]
      simp [hjb]
    · have hany : List.any (List.range n)
          (fun i => decide (markVar M b i j ≠ -1)) = true := by
        rw [List.any_eq_true]
        refine ⟨j, hj, ?_⟩
        have hv : markVar M b j j = 0 := by
          simp only [markVar, if_neg (by tauto : ¬ (j = b ∨ j = b))]
          exact hdiag j
        rw [hv]
        simp
      rw [hany]
      simp [hjb]
  refine ⟨hscan, ?_, ?_⟩
  · show pickedVars n (filtScan n thresh M) = _
    rw [hscan, hpicked]
  · show List.map _ (pickedVars n (filtScan n thresh M)) = _
    rw [hscan, hpicked]
    refine List.map_congr_left ?_
    intro i hi
    have hib : ¬ i = b := by
      have := (List.mem_filter.mp hi).2
      simpa using this
    refine List.map_congr_left ?_
    intro j hj
    have hjb : ¬ j = b := by
      have := (List.mem_filter.mp hj).2
      simpa using this
    simp only [markVar, if_neg (by tauto : ¬ (i = b ∨ j = b))]

/-- Counterexample to claim C2 as stated: scanning the 2-variable matrix
with transformed correlation 2 between variables 0 and 1 and threshold 1,
the (only) triggering cell is row 1, column 0; the claim says the COLUMN
variable 0 is eliminated, leaving survivors `[1]`, but `filt_corr` marks the
ROW variable 1 and the survivors are `[0]`. -/
theorem filtCorr_C2_counterexample :
    corrPair 1 0 > 1 ∧
    (filtCorr 2 1 corrPair).1 = [0] ∧
    ¬ ((filtCorr 2 1 corrPair).1 = [1]) := by
  refine ⟨by norm_num [corrPair], by decide, by decide⟩

/-- Witness for the amended C2 on the 3-variable matrix whose only
above-threshold pair is (0, 1) at threshold 1: the survivors are variables
0 and 2 — the row member 1 of the triggering cell (row 1, column 0) was
eliminated — and the returned matrix is the original restricted to them. -/
theorem filtCorr_C2_witness :
    (filtCorr 3 1 corrTriple).1 =
      List.filter (fun j => decide (¬ j = 1)) (List.range 3) ∧
    (filtCorr 3 1 corrTriple).1 = [0, 2] ∧
    (filtCorr 3 1 corrTriple).2 = [[0, 0], [0, 0]] := by
  have h := filtCorr_C2_amended 3 1 corrTriple 0 1 (by norm_num)
    (by norm_num) (by norm_num)
    (by
      intro i
      simp only [corrTriple]
      rw [if_neg]
      rintro (⟨h1, h2⟩ | ⟨h1, h2⟩) <;> omega)
    (by
      intro i j
      simp only [corrTriple]
      by_cases h : (i = 0 ∧ j = 1) ∨ (i = 1 ∧ j = 0)
      · rw [if_pos h, if_pos (by tauto)]
      · rw [if_neg h, if_neg (by tauto)])
    (by norm_num [corrTriple])
    (by
      intro i j hij h1 h2
      simp only [corrTriple]
      rw [if_neg (by tauto)]
      norm_num)
  refine ⟨h.2.1, ?_, ?_⟩
  · rw [h.2.1]
    decide
  · rw [h.2.2]
    decide
